import Mathlib

/-!
Verification of the GravityDown media-job orchestration backend
(`backend/main.py` and `backend/downloader.py`).

The Python code is shallowly embedded as executable Lean definitions:

* Python floats are modeled as exact rationals (`ℚ`).  Every numeric fact
  proved below (50.0, the 100.0 bound, the `> duration_ms * 10` comparison)
  is exact in binary floating point as well, so the modeling choice does not
  affect any claim.
* The per-kind task dictionaries (`manager.tasks`, `compression_tasks`,
  `convert_tasks`) are modeled as association lists `List (String × τ)`;
  `dict.get` is `List.lookup` and in-place mutation of a looked-up record is
  a keyed map over the list.
* All mutations in the source happen under the per-kind lock, so a
  lock-protected critical section is one atomic function application here.
  Where a claim is about lock *placement* (C1, C9) the code is embedded at
  a finer grain: one atomic step per lock acquisition, or an explicit action
  trace.
* String processing (`split`, `strip`, `float(...)`, `int(...)`) is
  implemented over `List Char` with structural/fuel recursion so that every
  definition evaluates inside the kernel.  `pyFloat?`/`pyInt?` cover the
  numeric literal forms the ffmpeg progress stream produces (sign, digits,
  decimal point); on any other input they return `none`, exactly as
  `float(...)`/`int(...)` raise `ValueError` (which every call site catches).
-/

namespace GravityDown

/-! ## String toolkit (Python `str` operations over `List Char`) -/

/-- Python `str.strip` (left part): drop leading whitespace. -/
def dropLeadWs : List Char → List Char
  | [] => []
  | c :: r => if c.isWhitespace then dropLeadWs r else c :: r

/-- Python `str.strip()`: drop leading and trailing whitespace. -/
def pyStrip (cs : List Char) : List Char :=
  ((dropLeadWs ((dropLeadWs cs).reverse)).reverse)

/-- Fuel-based worker for `splitOnChars`; the fuel is always at least the
length of the list, so the `0, l, acc` case is unreachable. -/
def splitOnAuxF (sep : List Char) : Nat → List Char → List Char → List (List Char)
  | _, [], acc => [acc.reverse]
  | 0, l, acc => [acc.reverse ++ l]
  | fuel+1, c :: rest, acc =>
    if sep.isPrefixOf (c :: rest) then
      acc.reverse :: splitOnAuxF sep fuel (rest.drop (sep.length - 1)) []
    else splitOnAuxF sep fuel rest (c :: acc)

/-- Python `a.split(sep)` for a non-empty separator: left-to-right,
non-overlapping, keeps empty pieces. -/
def splitOnChars (sep cs : List Char) : List (List Char) :=
  splitOnAuxF sep cs.length cs []

/-- Python `sub in line` (substring containment), used as the guard before
`line.split(sub)[1]`. -/
def hasSub (line sub : String) : Bool :=
  match splitOnChars sub.data line.data with
  | _ :: _ :: _ => true
  | _ => false

/-- Worker for `pySplitWs`. -/
def pySplitWsAux : List Char → List Char → List (List Char)
  | [], acc => if acc = [] then [] else [acc.reverse]
  | c :: r, acc =>
    if c.isWhitespace then
      (if acc = [] then pySplitWsAux r [] else acc.reverse :: pySplitWsAux r [])
    else pySplitWsAux r (c :: acc)

/-- Python `s.split()` with no argument: split on whitespace runs and drop
empty pieces. -/
def pySplitWs (cs : List Char) : List (List Char) :=
  pySplitWsAux cs []

/-- Python `sep.join(pieces)` at the character-list level. -/
def intercalateChars (sep : List Char) : List (List Char) → List Char
  | [] => []
  | [x] => x
  | x :: y :: rest => x ++ sep ++ intercalateChars sep (y :: rest)

/-- Python `str.lower()` (ASCII, which is all the call sites pass). -/
def lowerStr (s : String) : String :=
  ⟨s.data.map Char.toLower⟩

/-- Decimal value of a digit string. -/
def digitsFold (cs : List Char) : Nat :=
  cs.foldl (fun a c => a * 10 + (c.toNat - 48)) 0

/-- Value of a non-empty all-digit string, `none` otherwise. -/
def digitsVal (cs : List Char) : Option Nat :=
  if cs ≠ [] ∧ cs.all Char.isDigit then some (digitsFold cs) else none

/-- Python `int(s)` on the decimal literals the parsers feed it
(optional sign, digits); `none` models `ValueError`. -/
def pyInt? (s : String) : Option ℤ :=
  match pyStrip s.data with
  | '+' :: rest => (digitsVal rest).map Int.ofNat
  | '-' :: rest => (digitsVal rest).map fun n => -(n : ℤ)
  | cs => (digitsVal cs).map Int.ofNat

/-- Magnitude part of `pyFloat?`: digits with an optional decimal point. -/
def pyFloatMag (cs : List Char) : Option ℚ :=
  match splitOnChars ['.'] cs with
  | [ip] => (digitsVal ip).map fun n => (n : ℚ)
  | [ip, fp] =>
    if (ip ≠ [] ∨ fp ≠ []) ∧ ip.all Char.isDigit ∧ fp.all Char.isDigit then
      some ((digitsFold ip : ℚ) + (digitsFold fp : ℚ) / (10 ^ fp.length))
    else none
  | _ => none

/-- Python `float(s)` on the decimal literals the ffmpeg progress stream
emits (optional sign, digits, optional fractional part); `none` models
`ValueError`. -/
def pyFloat? (s : String) : Option ℚ :=
  match pyStrip s.data with
  | '+' :: rest => pyFloatMag rest
  | '-' :: rest => (pyFloatMag rest).map Neg.neg
  | cs => pyFloatMag cs

/-- The `key, value = line.strip().split("=", 1)` unpacking (maxsplit 1:
everything after the first `=` is the value). -/
def keyValueOf (line : String) : String × String :=
  match splitOnChars ['='] (pyStrip line.data) with
  | [] => ("", "")
  | k :: rest => (⟨k⟩, ⟨intercalateChars ['='] rest⟩)

/-! ## Data model (`downloader.py` and `main.py` dataclasses) -/

/-- Enum `DownloadStatus` of `downloader.py`. -/
inductive DownloadStatus
  | pending | fetching_info | downloading | processing | completed | error
deriving DecidableEq, Repr

/-- Dataclass `DownloadTask` of `downloader.py`. -/
structure DownloadTask where
  task_id : String
  url : String
  status : DownloadStatus := DownloadStatus.pending
  progress : ℚ := 0
  speed : String := "0 B/s"
  eta : String := "N/A"
  filename : String := ""
  error : Option String := none
  total_bytes : ℚ := 0
  downloaded_bytes : ℚ := 0
  title : String := ""
  thumbnail : String := ""
deriving DecidableEq, Repr

/-- Enum `CompressionStatus` of `main.py`. -/
inductive CompressionStatus
  | pending | compressing | completed | error
deriving DecidableEq, Repr

/-- Dataclass `CompressionTask` of `main.py`.  The `process` handle is an
opaque identifier; `use_gpu` is the attribute `start_compression` attaches
after construction. -/
structure CompressionTask where
  task_id : String
  input_path : String
  output_path : String
  status : CompressionStatus := CompressionStatus.pending
  progress : ℚ := 0
  eta : String := "N/A"
  error : Option String := none
  process : Option Nat := none
  use_gpu : Bool := false
deriving DecidableEq, Repr

/-- Dataclass `ConvertTask` of `main.py`; its `status` is a plain string in
the source (`"pending"`, `"processing"`, `"completed"`, `"error"`). -/
structure ConvertTask where
  task_id : String
  input_path : String
  output_path : String
  status : String := "pending"
  progress : ℚ := 0
  eta : String := "N/A"
  error : Option String := none
  process : Option Nat := none
deriving DecidableEq, Repr

/-- The dictionary argument `d` that yt-dlp passes to `_progress_hook`,
restricted to the keys the hook reads.  `Option` marks keys that may be
absent (`d.get(k)` with no default or with the recorded default). -/
structure HookDict where
  status : String := ""
  downloaded_bytes : ℚ := 0
  total_bytes : Option ℚ := none
  total_bytes_estimate : ℚ := 0
  speed : Option ℚ := none
  eta : Option ℚ := none
  filename : String := ""
  error_msg : Option String := none
deriving DecidableEq, Repr

/-- HTTPException outcomes the endpoints raise. -/
inductive ApiError
  | notFound (detail : String)
  | badRequest (detail : String)
  | conflict (detail : String)
deriving DecidableEq, Repr

/-- `manager.tasks`. -/
abbrev DRegistry := List (String × DownloadTask)
/-- `compression_tasks`. -/
abbrev CRegistry := List (String × CompressionTask)
/-- `convert_tasks`. -/
abbrev VRegistry := List (String × ConvertTask)

/-! ## Registry mutation helpers and their lemmas

In the source every mutation is `task = tasks.get(task_id)` followed by
in-place field writes under the per-kind lock; the net effect is a keyed
replacement. -/

/-- Replace the record stored under `tid` (no-op on an absent key). -/
def set_task {τ : Type} (reg : List (String × τ)) (tid : String) (t : τ) :
    List (String × τ) :=
  reg.map fun e => if e.1 = tid then (e.1, t) else e

/-- The `task = tasks.get(task_id); if task: task.progress = p` pattern of
the compress line handler. -/
def update_progress_c (reg : CRegistry) (tid : String) (p : ℚ) : CRegistry :=
  reg.map fun e => if e.1 = tid then (e.1, { e.2 with progress := p }) else e

/-- The same pattern for the convert line handler. -/
def update_progress_v (reg : VRegistry) (tid : String) (p : ℚ) : VRegistry :=
  reg.map fun e => if e.1 = tid then (e.1, { e.2 with progress := p }) else e

theorem lookup_cons_of_ne {τ : Type} {tid k : String} (v : τ)
    (xs : List (String × τ)) (h : tid ≠ k) :
    List.lookup tid ((k, v) :: xs) = List.lookup tid xs := by
  simp [List.lookup, beq_eq_false_iff_ne.mpr h]

theorem lookup_cons_same {τ : Type} (tid : String) (v : τ)
    (xs : List (String × τ)) :
    List.lookup tid ((tid, v) :: xs) = some v := by
  simp [List.lookup]

theorem map_keyfix_of_lookup_none {τ : Type} (reg : List (String × τ))
    (tid : String) (f : String × τ → τ) (h : List.lookup tid reg = none) :
    (reg.map fun e => if e.1 = tid then (e.1, f e) else e) = reg := by
  induction reg with
  | nil => rfl
  | cons x xs ih =>
    obtain ⟨k, v⟩ := x
    by_cases hk : tid = k
    · subst hk; rw [lookup_cons_same] at h; exact absurd h (by simp)
    · rw [lookup_cons_of_ne v xs hk] at h
      simp only [List.map_cons, ih h]
      simp [Ne.symm hk]

theorem lookup_map_keyfix {τ : Type} (reg : List (String × τ)) (tid : String)
    (f : String × τ → τ) {t : τ} (h : List.lookup tid reg = some t) :
    List.lookup tid (reg.map fun e => if e.1 = tid then (e.1, f e) else e)
      = some (f (tid, t)) := by
  induction reg with
  | nil => simp [List.lookup] at h
  | cons x xs ih =>
    obtain ⟨k, v⟩ := x
    by_cases hk : tid = k
    · subst hk
      rw [lookup_cons_same] at h
      obtain rfl : v = t := by simpa using h
      simp only [List.map_cons, if_pos rfl]
      exact lookup_cons_same tid _ _
    · rw [lookup_cons_of_ne v xs hk] at h
      simp only [List.map_cons]
      have hk' : ¬ (k, v).1 = tid := Ne.symm hk
      rw [if_neg hk']
      rw [lookup_cons_of_ne v _ hk]
      exact ih h

theorem mem_map_keyfix {τ : Type} {P : τ → Prop} (reg : List (String × τ))
    (tid : String) (f : String × τ → τ)
    (hreg : ∀ e ∈ reg, P e.2) (hf : ∀ e ∈ reg, P (f e)) :
    ∀ e ∈ (reg.map fun e => if e.1 = tid then (e.1, f e) else e), P e.2 := by
  intro e he
  rw [List.mem_map] at he
  obtain ⟨a, ha, rfl⟩ := he
  by_cases h : a.1 = tid
  · simpa [h] using hf a ha
  · simpa [h] using hreg a ha

theorem lookup_mem {τ : Type} {reg : List (String × τ)} {tid : String} {t : τ}
    (h : List.lookup tid reg = some t) : (tid, t) ∈ reg := by
  induction reg with
  | nil => simp [List.lookup] at h
  | cons x xs ih =>
    obtain ⟨k, v⟩ := x
    by_cases hk : tid = k
    · subst hk
      rw [lookup_cons_same] at h
      obtain rfl : v = t := by simpa using h
      exact List.mem_cons_self _ _
    · rw [lookup_cons_of_ne v xs hk] at h
      exact List.mem_cons_of_mem _ (ih h)

theorem update_progress_c_of_none {reg : CRegistry} {tid : String} (p : ℚ)
    (h : List.lookup tid reg = none) : update_progress_c reg tid p = reg :=
  map_keyfix_of_lookup_none reg tid _ h

theorem update_progress_v_of_none {reg : VRegistry} {tid : String} (p : ℚ)
    (h : List.lookup tid reg = none) : update_progress_v reg tid p = reg :=
  map_keyfix_of_lookup_none reg tid _ h

theorem mem_update_progress_c {P : CompressionTask → Prop} {reg : CRegistry}
    (tid : String) (p : ℚ) (hreg : ∀ e ∈ reg, P e.2)
    (hp : ∀ t : CompressionTask, P ({ t with progress := p })) :
    ∀ e ∈ update_progress_c reg tid p, P e.2 :=
  mem_map_keyfix reg tid _ hreg (fun e _ => hp e.2)

theorem mem_update_progress_v {P : ConvertTask → Prop} {reg : VRegistry}
    (tid : String) (p : ℚ) (hreg : ∀ e ∈ reg, P e.2)
    (hp : ∀ t : ConvertTask, P ({ t with progress := p })) :
    ∀ e ∈ update_progress_v reg tid p, P e.2 :=
  mem_map_keyfix reg tid _ hreg (fun e _ => hp e.2)

/-! ## DownloadManager (`downloader.py`) -/

/-- Truncation toward zero, Python `int(x)` on a float. -/
def ratTrunc (q : ℚ) : ℤ :=
  if 0 ≤ q then ⌊q⌋ else ⌈q⌉

/-- Rendering used for `f"{speed:.1f}"`.  Python formats the underlying
binary float with round-half-to-even; the model rounds the exact rational
(ties toward the larger value).  No claim depends on this digit. -/
def formatFixed1 (q : ℚ) : String :=
  let n : ℤ := round (q * 10)
  let m := n.natAbs
  (if n < 0 then "-" else "") ++ toString (m / 10) ++ "." ++ toString (m % 10)

/-- Loop of `_format_speed`: divide by 1024 while `speed >= 1024` and a
larger unit remains (at most 3 iterations, given here as fuel). -/
def format_speed_aux : Nat → ℚ → Nat → ℚ × Nat
  | 0, speed, idx => (speed, idx)
  | fuel+1, speed, idx =>
    if speed ≥ 1024 ∧ idx < 3 then format_speed_aux fuel (speed / 1024) (idx + 1)
    else (speed, idx)

/-- `DownloadManager._format_speed`; `none` and `0` are both falsy in
`if not speed`. -/
def format_speed (speed : Option ℚ) : String :=
  match speed with
  | none => "0 B/s"
  | some v =>
    if v = 0 then "0 B/s"
    else
      let r := format_speed_aux 3 v 0
      formatFixed1 r.1 ++ " " ++ (["B/s", "KB/s", "MB/s", "GB/s"].getD r.2 "B/s")

/-- `DownloadManager._format_eta`; `divmod` is floor division in Python. -/
def format_eta (eta : Option ℚ) : String :=
  match eta with
  | none => "N/A"
  | some e =>
    if e = 0 then "N/A"
    else
      let total := ratTrunc e
      let minutes0 := Int.fdiv total 60
      let seconds := Int.fmod total 60
      let hours := Int.fdiv minutes0 60
      let minutes := Int.fmod minutes0 60
      if hours ≠ 0 then
        toString hours ++ "h " ++ toString minutes ++ "m " ++ toString seconds ++ "s"
      else if minutes ≠ 0 then
        toString minutes ++ "m " ++ toString seconds ++ "s"
      else
        toString seconds ++ "s"

/-- The effective total of `_progress_hook`:
`d.get("total_bytes") or d.get("total_bytes_estimate", 0)` (Python `or`
falls through on `None` **and** on `0`). -/
def hook_total (d : HookDict) : ℚ :=
  match d.total_bytes with
  | none => d.total_bytes_estimate
  | some v => if v = 0 then d.total_bytes_estimate else v

/-- `DownloadManager._progress_hook` (downloader.py lines 132-164): the
whole body runs under `self._lock`; an unknown `task_id` returns without
touching anything.  Note that in the `downloading` branch the progress is
only recomputed when the effective total is positive, and is **not**
clamped to 100. -/
def progress_hook (reg : DRegistry) (tid : String) (d : HookDict) : DRegistry :=
  match List.lookup tid reg with
  | none => reg
  | some task =>
    if d.status = "downloading" then
      let t1 := { task with
        status := DownloadStatus.downloading,
        downloaded_bytes := d.downloaded_bytes,
        total_bytes := hook_total d }
      let t2 := if t1.total_bytes > (0 : ℚ)
        then { t1 with progress := t1.downloaded_bytes / t1.total_bytes * 100 }
        else t1
      let t3 := { t2 with
        speed := format_speed d.speed,
        eta := format_eta d.eta,
        filename := d.filename }
      set_task reg tid t3
    else if d.status = "finished" then
      set_task reg tid { task with
        status := DownloadStatus.processing, progress := 100,
        filename := d.filename }
    else if d.status = "error" then
      set_task reg tid { task with
        status := DownloadStatus.error,
        error := some (d.error_msg.getD "Unknown error") }
    else reg

/-- `DownloadManager.cancel_task` (downloader.py lines 407-415). -/
def cancel_task (reg : DRegistry) (tid : String) : Bool × DRegistry :=
  match List.lookup tid reg with
  | some task =>
    if task.status = DownloadStatus.pending ∨ task.status = DownloadStatus.downloading then
      (true, set_task reg tid { task with
        status := DownloadStatus.error, error := some "Cancelled by user" })
    else (false, reg)
  | none => (false, reg)

/-- Endpoint `DELETE /cancel/{task_id}` (main.py lines 924-934): a failed
`cancel_task` becomes a 400 admission error. -/
def cancel_download (reg : DRegistry) (tid : String) :
    Except ApiError (String × String) × DRegistry :=
  let r := cancel_task reg tid
  if r.1 then (Except.ok ("cancelled", tid), r.2)
  else (Except.error (ApiError.badRequest "Cannot cancel this task"), r.2)

/-! ## Transcode progress parsing (`_run_compression.handle_line` and
`_run_convert.handle_line` in main.py)

The handlers close over two `nonlocal` variables (`out_time_ms`,
`last_progress`), gathered into `LineState`; each task write re-looks the
task up under the per-kind lock (`update_progress_c` / `update_progress_v`).
The `log_count` counter and the `print` statements have no task-visible
effect and are omitted. -/

/-- The `nonlocal` state of one handler closure. -/
structure LineState where
  out_time_ms : ℚ := 0
  last_progress : ℚ := 0
deriving DecidableEq, Repr

/-- Python truthiness of the optional `duration_ms` (`None` and `0` are
falsy). -/
def duration_known : Option ℚ → Bool
  | none => false
  | some d => if d = 0 then false else true

/-- The repeated progress computation of both handlers:
`min(100.0, out_time_ms / duration_ms * 100)` when the duration is truthy,
else the heuristic `min(99.0, last_progress + inc)`. -/
def compute_progress (duration_ms : Option ℚ) (out_ms last inc : ℚ) : ℚ :=
  match duration_ms with
  | some d => if d = 0 then min 99 (last + inc) else min 100 (out_ms / d * 100)
  | none => min 99 (last + inc)

/-- Guard for the engine quirk (main.py lines 497-500 and 724-727): a raw
`out_time_ms` exceeding `duration_ms * 10` is treated as microseconds. -/
def out_time_ms_reinterpret (duration_ms : Option ℚ) (raw : ℚ) : ℚ :=
  match duration_ms with
  | some d => if d ≠ 0 ∧ raw > d * 10 then raw / 1000 else raw
  | none => raw

/-- Common tail of the compress handler's time branches: store the new
`out_time_ms`, compute the progress, write it to the task under the lock,
remember it in `last_progress`. -/
def apply_out_time_c (duration_ms : Option ℚ) (tid : String) (out : ℚ)
    (st : LineState) (reg : CRegistry) : LineState × CRegistry :=
  let p := compute_progress duration_ms out st.last_progress (0.2 : ℚ)
  (⟨out, p⟩, update_progress_c reg tid p)

/-- Convert-side twin of `apply_out_time_c`. -/
def apply_out_time_v (duration_ms : Option ℚ) (tid : String) (out : ℚ)
    (st : LineState) (reg : VRegistry) : LineState × VRegistry :=
  let p := compute_progress duration_ms out st.last_progress (0.2 : ℚ)
  (⟨out, p⟩, update_progress_v reg tid p)

/-- The `if "time=" in line:` branch (compress handler, main.py lines
462-478): `line.split("time=")[1].split()[0]` must split into exactly
`h:m:s`, with `float(s)`, `int(m)`, `int(h)` all succeeding; any failure is
swallowed by the `except Exception: pass`. -/
def time_eq_branch_c (duration_ms : Option ℚ) (tid line : String)
    (st : LineState) (reg : CRegistry) : LineState × CRegistry :=
  match (splitOnChars "time=".data line.data).get? 1 with
  | none => (st, reg)
  | some after =>
    match (pySplitWs after).get? 0 with
    | none => (st, reg)
    | some tp =>
      match splitOnChars [':'] tp with
      | [hs, ms, ss] =>
        match pyFloat? ⟨ss⟩, pyInt? ⟨ms⟩, pyInt? ⟨hs⟩ with
        | some s, some m, some h =>
          apply_out_time_c duration_ms tid ((s + (m : ℚ) * 60 + (h : ℚ) * 3600) * 1000) st reg
        | _, _, _ => (st, reg)
      | _ => (st, reg)

/-- Convert-side twin of `time_eq_branch_c` (main.py lines 698-714). -/
def time_eq_branch_v (duration_ms : Option ℚ) (tid line : String)
    (st : LineState) (reg : VRegistry) : LineState × VRegistry :=
  match (splitOnChars "time=".data line.data).get? 1 with
  | none => (st, reg)
  | some after =>
    match (pySplitWs after).get? 0 with
    | none => (st, reg)
    | some tp =>
      match splitOnChars [':'] tp with
      | [hs, ms, ss] =>
        match pyFloat? ⟨ss⟩, pyInt? ⟨ms⟩, pyInt? ⟨hs⟩ with
        | some s, some m, some h =>
          apply_out_time_v duration_ms tid ((s + (m : ℚ) * 60 + (h : ℚ) * 3600) * 1000) st reg
        | _, _, _ => (st, reg)
      | _ => (st, reg)

/-- The `key == "out_time_ms"` branch of the compress handler (main.py
lines 491-511). -/
def out_time_ms_branch_c (duration_ms : Option ℚ) (tid value : String)
    (st : LineState) (reg : CRegistry) : LineState × CRegistry :=
  match pyFloat? value with
  | none => (st, reg)
  | some raw =>
    apply_out_time_c duration_ms tid (out_time_ms_reinterpret duration_ms raw) st reg

/-- The `key == "out_time_us"` branch of the compress handler (main.py
lines 512-529). -/
def out_time_us_branch_c (duration_ms : Option ℚ) (tid value : String)
    (st : LineState) (reg : CRegistry) : LineState × CRegistry :=
  match pyFloat? value with
  | none => (st, reg)
  | some raw => apply_out_time_c duration_ms tid (raw / 1000) st reg

/-- The `key == "out_time"` branch of the compress handler (main.py lines
530-550): a colon-separated `H:M:S(.ms)` value, all three parts parsed with
`float`. -/
def out_time_branch_c (duration_ms : Option ℚ) (tid value : String)
    (st : LineState) (reg : CRegistry) : LineState × CRegistry :=
  match splitOnChars [':'] value.data with
  | [p1, p2, p3] =>
    match pyFloat? ⟨p3⟩, pyFloat? ⟨p2⟩, pyFloat? ⟨p1⟩ with
    | some s, some m, some h =>
      apply_out_time_c duration_ms tid ((h * 3600 + m * 60 + s) * 1000) st reg
    | _, _, _ => (st, reg)
  | _ => (st, reg)

/-- Key dispatch of the compress handler after `key, value =
line.strip().split("=", 1)` (main.py lines 486-558). -/
def key_branch_c (duration_ms : Option ℚ) (tid key value : String)
    (st : LineState) (reg : CRegistry) : LineState × CRegistry :=
  if key = "out_time_ms" then out_time_ms_branch_c duration_ms tid value st reg
  else if key = "out_time_us" then out_time_us_branch_c duration_ms tid value st reg
  else if key = "out_time" then out_time_branch_c duration_ms tid value st reg
  else if key = "progress" ∧ value = "continue" then
    if duration_known duration_ms then (st, reg)
    else
      let p := min 99 (st.last_progress + (0.3 : ℚ))
      ({ st with last_progress := p }, update_progress_c reg tid p)
  else (st, reg)

/-- `_run_compression.handle_line` (main.py lines 459-558): the `time=`
branch runs first (its `except ... pass` falls through), then the
`key=value` dispatch; a line with no `=` only logs and returns. -/
def handle_line_compress (duration_ms : Option ℚ) (tid line : String)
    (st : LineState) (reg : CRegistry) : LineState × CRegistry :=
  let r1 := if hasSub line "time=" then time_eq_branch_c duration_ms tid line st reg
            else (st, reg)
  if hasSub line "=" then
    key_branch_c duration_ms tid (keyValueOf line).1 (keyValueOf line).2 r1.1 r1.2
  else r1

/-- State update of the convert handler's key dispatch (main.py lines
719-732): `out_time_ms` applies the microseconds guard, `out_time_us`
divides by 1000, a parse failure returns early (`none`), any other key
leaves the state as is. -/
def key_state_update_v (duration_ms : Option ℚ) (key value : String)
    (st : LineState) : Option LineState :=
  if key = "out_time_ms" then
    match pyFloat? value with
    | none => none
    | some raw => some { st with out_time_ms := out_time_ms_reinterpret duration_ms raw }
  else if key = "out_time_us" then
    match pyFloat? value with
    | none => none
    | some raw => some { st with out_time_ms := raw / 1000 }
  else some st

/-- `_run_convert.handle_line` (main.py lines 696-743): after the state
update, any of the three time keys triggers one progress write computed
from the current `out_time_ms` (for `out_time` itself the value was parsed,
if at all, by the `time=` branch above). -/
def handle_line_convert (duration_ms : Option ℚ) (tid line : String)
    (st : LineState) (reg : VRegistry) : LineState × VRegistry :=
  let r1 := if hasSub line "time=" then time_eq_branch_v duration_ms tid line st reg
            else (st, reg)
  if hasSub line "=" then
    let key := (keyValueOf line).1
    match key_state_update_v duration_ms key (keyValueOf line).2 r1.1 with
    | none => r1
    | some st2 =>
      if key = "out_time_ms" ∨ key = "out_time_us" ∨ key = "out_time" then
        let p := compute_progress duration_ms st2.out_time_ms st2.last_progress (0.2 : ℚ)
        ({ st2 with last_progress := p }, update_progress_v r1.2 tid p)
      else (st2, r1.2)
  else r1

/-! ## Terminal writes after process exit (`_run_compression` lines
595-609, `_run_convert` lines 773-787) -/

/-- Python `lines[-5:]`: the most recent (up to) `n` retained lines. -/
def lastN (n : Nat) (l : List String) : List String :=
  l.drop (l.length - n)

/-- Join with newlines, `"\n".join(...)`. -/
def joinNL (l : List String) : String :=
  ⟨intercalateChars ['\n'] (l.map String.data)⟩

/-- The compress failure message: the retained stderr tail, or the default
diagnostic when the tail is empty (`tail or "Error al comprimir el
video."`). -/
def stderr_tail_c (lines : List String) : String :=
  let tail := joinNL (lastN 5 lines)
  if tail = "" then "Error al comprimir el video." else tail

/-- The convert failure message (`tail or "Error al convertir."`). -/
def stderr_tail_v (lines : List String) : String :=
  let tail := joinNL (lastN 5 lines)
  if tail = "" then "Error al convertir." else tail

/-- Terminal write of `_run_compression` after `process.wait()` (main.py
lines 595-609): a vanished task or the cancellation sentinel short-circuit;
exit code 0 completes with progress forced to 100; otherwise ERROR with the
stderr tail. -/
def run_compression_finish (returncode : ℤ) (last_error_lines : List String)
    (reg : CRegistry) (tid : String) : CRegistry :=
  match List.lookup tid reg with
  | none => reg
  | some task =>
    if task.error = some "Cancelled by user" then reg
    else if returncode = 0 then
      set_task reg tid { task with
        status := CompressionStatus.completed, progress := 100 }
    else
      set_task reg tid { task with
        status := CompressionStatus.error,
        error := some (stderr_tail_c last_error_lines) }

/-- Terminal write of `_run_convert` (main.py lines 773-787). -/
def run_convert_finish (returncode : ℤ) (last_error_lines : List String)
    (reg : VRegistry) (tid : String) : VRegistry :=
  match List.lookup tid reg with
  | none => reg
  | some task =>
    if task.error = some "Cancelled by user" then reg
    else if returncode = 0 then
      set_task reg tid { task with status := "completed", progress := 100 }
    else
      set_task reg tid { task with
        status := "error", error := some (stderr_tail_v last_error_lines) }

/-! ## Output path construction (`_build_output_path` main.py lines
305-319, `_build_convert_output_path` lines 322-336)

The filesystem is abstracted as the decidable set `ex` of existing paths,
and `int(time.time())` as the parameter `now`.  Paths are modeled with the
posix separator. -/

/-- Python `os.path.basename`: the part after the last separator. -/
def basenameChars (cs : List Char) : List Char :=
  (splitOnChars ['/'] cs).getLastD []

/-- Python `os.path.splitext` on a basename: split at the last dot,
provided some character before it is not a dot (so `.bashrc` has no
extension). -/
def splitextChars (cs : List Char) : List Char × List Char :=
  match splitOnChars ['.'] cs with
  | [] => (cs, [])
  | [_] => (cs, [])
  | parts =>
    let pre := intercalateChars ['.'] parts.dropLast
    let post := parts.getLastD []
    if pre.any (fun c => c ≠ '.') then (pre, '.' :: post) else (cs, [])

/-- Python `os.path.join(dir, name)` (posix form). -/
def path_join (dir name : String) : String :=
  if dir = "" then name
  else if name.data.head? = some '/' then name
  else if dir.data.getLast? = some '/' then dir ++ name
  else dir ++ "/" ++ name

/-- `f"{base}-compressed"` where `base` is the input's basename without
extension. -/
def compress_base (input_path : String) : String :=
  ⟨(splitextChars (basenameChars input_path.data)).1⟩ ++ "-compressed"

/-- The kind-suffixed default candidate `{safe_base}.{ext}` of
`_build_output_path`. -/
def compress_default (input_path output_dir output_format : String) : String :=
  path_join output_dir (compress_base input_path ++ "." ++ lowerStr output_format)

/-- The numbered candidate `{safe_base}-{i}.{ext}`; the timestamp fallback
is this same shape at `i = int(time.time())`. -/
def compress_numbered (input_path output_dir output_format : String) (i : Nat) : String :=
  path_join output_dir
    (compress_base input_path ++ "-" ++ toString i ++ "." ++ lowerStr output_format)

/-- `_build_output_path` (main.py lines 305-319): the default candidate if
free, else the first free numbered candidate for `index in range(2, 50)`,
else the timestamp-suffixed path. -/
def build_output_path (ex : String → Bool) (now : Nat)
    (input_path output_dir output_format : String) : String :=
  if ex (compress_default input_path output_dir output_format) = false then
    compress_default input_path output_dir output_format
  else
    match (List.range' 2 48).find?
        (fun i => ! ex (compress_numbered input_path output_dir output_format i)) with
    | some i => compress_numbered input_path output_dir output_format i
    | none => compress_numbered input_path output_dir output_format now

/-- `f"{base}-converted"`. -/
def convert_base (input_path : String) : String :=
  ⟨(splitextChars (basenameChars input_path.data)).1⟩ ++ "-converted"

/-- Default candidate of `_build_convert_output_path`. -/
def convert_default (input_path output_dir output_format : String) : String :=
  path_join output_dir (convert_base input_path ++ "." ++ lowerStr output_format)

/-- Numbered candidate of `_build_convert_output_path`. -/
def convert_numbered (input_path output_dir output_format : String) (i : Nat) : String :=
  path_join output_dir
    (convert_base input_path ++ "-" ++ toString i ++ "." ++ lowerStr output_format)

/-- `_build_convert_output_path` (main.py lines 322-336). -/
def build_convert_output_path (ex : String → Bool) (now : Nat)
    (input_path output_dir output_format : String) : String :=
  if ex (convert_default input_path output_dir output_format) = false then
    convert_default input_path output_dir output_format
  else
    match (List.range' 2 48).find?
        (fun i => ! ex (convert_numbered input_path output_dir output_format i)) with
    | some i => convert_numbered input_path output_dir output_format i
    | none => convert_numbered input_path output_dir output_format now

/-! ## Event streams (`task_events`, `compression_events`,
`convert_events`)

All three `event_generator` loops are the same shape: poll the registry,
end silently if the task vanished, emit a snapshot, end after the first
snapshot whose status is terminal.  The input list is the sequence of
per-tick poll results. -/

/-- One `event_generator` loop over a sequence of polls. -/
def event_stream {α : Type} (isTerminal : α → Bool) : List (Option α) → List α
  | [] => []
  | none :: _ => []
  | some t :: rest => t :: if isTerminal t then [] else event_stream isTerminal rest

/-- Terminal test of `task_events` (main.py line 916). -/
def download_terminal (t : DownloadTask) : Bool :=
  t.status == DownloadStatus.completed || t.status == DownloadStatus.error

/-- Terminal test of `compression_events` (main.py line 1090). -/
def compression_terminal (t : CompressionTask) : Bool :=
  t.status == CompressionStatus.completed || t.status == CompressionStatus.error

/-- Terminal test of `convert_events` (main.py line 1181). -/
def convert_terminal (t : ConvertTask) : Bool :=
  t.status == "completed" || t.status == "error"

/-! ## Compress admission (`start_compression`, main.py lines 989-1027)

The endpoint takes `compression_lock` **twice**: once for the duplicate
scan (lines 995-998) and once, after generating the task id, for the task
creation (lines 1004-1010).  Each `with compression_lock:` block is one
atomic step here; between the two steps of one request the other request
may run. -/

/-- The scan of lines 996-998: any task in COMPRESSING state rejects. -/
def any_compressing (reg : CRegistry) : Bool :=
  reg.any fun e => e.2.status == CompressionStatus.compressing

/-- First critical section of `start_compression`: the 409 duplicate scan. -/
def compress_scan_phase (reg : CRegistry) : Except ApiError Unit :=
  if any_compressing reg then
    Except.error (ApiError.conflict "Ya hay una compresion en curso")
  else Except.ok ()

/-- Second critical section of `start_compression`: insert the new PENDING
task. -/
def compress_create_phase (reg : CRegistry) (tid input_path : String)
    (use_gpu : Bool) : CRegistry :=
  reg ++ [(tid, { task_id := tid, input_path := input_path, output_path := "",
                  use_gpu := use_gpu })]

inductive AdmissionOutcome
  | admitted | rejected409
deriving DecidableEq, Repr

/-- Program counter of one in-flight submission: 0 = before the scan,
1 = scanned OK (create pending), 2 = done. -/
structure SubmissionState where
  tid : String
  pc : Nat := 0
  outcome : Option AdmissionOutcome := none
deriving DecidableEq, Repr

/-- Run the next atomic (single-lock-acquisition) step of one submission. -/
def submission_step (reg : CRegistry) (s : SubmissionState) :
    CRegistry × SubmissionState :=
  match s.pc with
  | 0 =>
    match compress_scan_phase reg with
    | Except.error _ => (reg, { s with pc := 2, outcome := some AdmissionOutcome.rejected409 })
    | Except.ok _ => (reg, { s with pc := 1 })
  | 1 => (compress_create_phase reg s.tid "input.mp4" false,
          { s with pc := 2, outcome := some AdmissionOutcome.admitted })
  | _ => (reg, s)

/-- Interleave two submissions under a schedule (`false` steps the first
request, `true` the second). -/
def run_two_submissions : List Bool → CRegistry → SubmissionState → SubmissionState →
    CRegistry × SubmissionState × SubmissionState
  | [], reg, a, b => (reg, a, b)
  | false :: rest, reg, a, b =>
    let r := submission_step reg a
    run_two_submissions rest r.1 r.2 b
  | true :: rest, reg, a, b =>
    let r := submission_step reg b
    run_two_submissions rest r.1 a r.2

/-! ## Lock placement in the cancel endpoints (`cancel_compression` main.py
lines 937-960, `cancel_convert` lines 963-986)

For the lock-placement claim the endpoints are embedded as ordered action
traces; `with compression_lock:` contributes an acquire at entry and a
release at exit (also on the exception paths). -/

inductive CancelAction
  | acquireLock | releaseLock | lookupTask | raiseNotFound | raiseBadRequest
  | processTerminate | processWait | processKill | writeStatusError | writeErrorMsg
deriving DecidableEq, Repr

/-- Action trace of `cancel_compression`, parameterized by which branch the
data selects.  Everything between `acquireLock` and `releaseLock` is the
body of the `with compression_lock:` block, exactly as in the source —
including `process.wait(timeout=5)`. -/
def cancel_compression_trace (taskFound cancellable hasProcess waitTimesOut : Bool) :
    List CancelAction :=
  [CancelAction.acquireLock, CancelAction.lookupTask] ++
  (if taskFound = false then [CancelAction.raiseNotFound]
   else if cancellable = false then [CancelAction.raiseBadRequest]
   else
     (if hasProcess then
        [CancelAction.processTerminate, CancelAction.processWait] ++
        (if waitTimesOut then [CancelAction.processKill] else [])
      else []) ++
     [CancelAction.writeStatusError, CancelAction.writeErrorMsg]) ++
  [CancelAction.releaseLock]

/-- Action trace of `cancel_convert` (structurally identical duplicate in
the source). -/
def cancel_convert_trace (taskFound cancellable hasProcess waitTimesOut : Bool) :
    List CancelAction :=
  [CancelAction.acquireLock, CancelAction.lookupTask] ++
  (if taskFound = false then [CancelAction.raiseNotFound]
   else if cancellable = false then [CancelAction.raiseBadRequest]
   else
     (if hasProcess then
        [CancelAction.processTerminate, CancelAction.processWait] ++
        (if waitTimesOut then [CancelAction.processKill] else [])
      else []) ++
     [CancelAction.writeStatusError, CancelAction.writeErrorMsg]) ++
  [CancelAction.releaseLock]

/-- The per-kind registry lock is held at position `i` of a trace iff the
acquisitions before `i` outnumber the releases. -/
def lock_held_at (tr : List CancelAction) (i : Nat) : Bool :=
  (tr.take i).count CancelAction.releaseLock < (tr.take i).count CancelAction.acquireLock

/-! ## Claim theorems -/

/-- C1: the claim asserts that the duplicate scan and the task creation of
`start_compression` happen under one acquisition of the compress registry
lock, so that two compress jobs can never both be admitted while neither
observes the other.  The source takes the lock twice, so the interleaving
scan(A), scan(B), create(A), create(B) — each step one lock acquisition —
admits both submissions from an empty registry even though neither scan
observed the other's task: the check-then-create is not atomic. -/
theorem compress_admission_race :
    ((run_two_submissions [false, true, false, true] []
        { tid := "a" } { tid := "b" }).2.1.outcome = some AdmissionOutcome.admitted)
    ∧ ((run_two_submissions [false, true, false, true] []
        { tid := "a" } { tid := "b" }).2.2.outcome = some AdmissionOutcome.admitted)
    ∧ ((run_two_submissions [false, true, false, true] []
        { tid := "a" } { tid := "b" }).1.length = 2)
    ∧ any_compressing [] = false := by
  refine ⟨?_, ?_, ?_, ?_⟩ <;> rfl

/-- C9: the claim asserts that no blocking call — in particular
`process.wait()` in the compress/convert cancellation — runs while a
task-map lock is held.  In both cancel endpoints the successful-cancel
trace places `process.wait(timeout=5)` (index 3) strictly between the
acquisition and the release of the per-kind registry lock, so the wait on
the terminated process runs with the lock held. -/
theorem cancel_wait_holds_lock :
    ((cancel_compression_trace true true true false).get? 3
        = some CancelAction.processWait
      ∧ lock_held_at (cancel_compression_trace true true true false) 3 = true)
    ∧ ((cancel_convert_trace true true true false).get? 3
        = some CancelAction.processWait
      ∧ lock_held_at (cancel_convert_trace true true true false) 3 = true) := by
  refine ⟨⟨?_, ?_⟩, ⟨?_, ?_⟩⟩ <;> rfl

/-- C3: once a compress or convert task's error field holds the
cancellation sentinel "Cancelled by user", the terminal write after process
exit leaves the registry — in particular that task's error and status —
unchanged, for a completing (exit 0) and for a failing (nonzero exit)
process alike. -/
theorem cancel_sentinel_never_overwritten
    (rc : ℤ) (lines : List String) (tid : String)
    (regC : CRegistry) (taskC : CompressionTask)
    (hC : List.lookup tid regC = some taskC)
    (hCe : taskC.error = some "Cancelled by user")
    (regV : VRegistry) (taskV : ConvertTask)
    (hV : List.lookup tid regV = some taskV)
    (hVe : taskV.error = some "Cancelled by user") :
    run_compression_finish rc lines regC tid = regC
    ∧ run_convert_finish rc lines regV tid = regV := by
  constructor
  · unfold run_compression_finish
    rw [hC]
    simp [hCe]
  · unfold run_convert_finish
    rw [hV]
    simp [hVe]

/-- Witness for C3 at a concrete registry holding a cancelled task. -/
theorem cancel_sentinel_never_overwritten_witness :
    run_compression_finish 0 ["boom"]
        [("t", { task_id := "t", input_path := "i", output_path := "",
                 error := some "Cancelled by user" })] "t"
      = [("t", { task_id := "t", input_path := "i", output_path := "",
                 error := some "Cancelled by user" })]
    ∧ run_convert_finish 0 ["boom"]
        [("t", { task_id := "t", input_path := "i", output_path := "",
                 error := some "Cancelled by user" })] "t"
      = [("t", { task_id := "t", input_path := "i", output_path := "",
                 error := some "Cancelled by user" })] :=
  cancel_sentinel_never_overwritten 0 ["boom"] "t" _ _ (lookup_cons_same _ _ _) rfl
    _ _ (lookup_cons_same _ _ _) rfl

/-- C5: for a compress or convert task not carrying the cancellation
sentinel, the terminal write maps exit code 0 to COMPLETED with progress
forced to exactly 100, and any nonzero exit code to ERROR with the retained
stderr tail (or the default diagnostic) as the error; consequently the task
this write leaves in COMPLETED has progress 100. -/
theorem terminal_exit_outcome
    (rc : ℤ) (lines : List String) (tid : String)
    (regC : CRegistry) (taskC : CompressionTask)
    (hC : List.lookup tid regC = some taskC)
    (hCe : taskC.error ≠ some "Cancelled by user")
    (regV : VRegistry) (taskV : ConvertTask)
    (hV : List.lookup tid regV = some taskV)
    (hVe : taskV.error ≠ some "Cancelled by user") :
    (rc = 0 → List.lookup tid (run_compression_finish rc lines regC tid)
        = some { taskC with status := CompressionStatus.completed, progress := 100 })
    ∧ (rc ≠ 0 → List.lookup tid (run_compression_finish rc lines regC tid)
        = some { taskC with status := CompressionStatus.error,
                            error := some (stderr_tail_c lines) })
    ∧ (∀ t, List.lookup tid (run_compression_finish rc lines regC tid) = some t →
        t.status = CompressionStatus.completed → t.progress = 100)
    ∧ (rc = 0 → List.lookup tid (run_convert_finish rc lines regV tid)
        = some { taskV with status := "completed", progress := 100 })
    ∧ (rc ≠ 0 → List.lookup tid (run_convert_finish rc lines regV tid)
        = some { taskV with status := "error",
                            error := some (stderr_tail_v lines) })
    ∧ (∀ t, List.lookup tid (run_convert_finish rc lines regV tid) = some t →
        t.status = "completed" → t.progress = 100) := by
  have hc0 : rc = 0 →
      List.lookup tid (run_compression_finish rc lines regC tid)
        = some { taskC with status := CompressionStatus.completed, progress := 100 } := by
    intro h0
    unfold run_compression_finish
    rw [hC]
    dsimp only
    rw [if_neg hCe, if_pos h0]
    exact lookup_map_keyfix regC tid _ hC
  have hc1 : rc ≠ 0 →
      List.lookup tid (run_compression_finish rc lines regC tid)
        = some { taskC with status := CompressionStatus.error,
                            error := some (stderr_tail_c lines) } := by
    intro h0
    unfold run_compression_finish
    rw [hC]
    dsimp only
    rw [if_neg hCe, if_neg h0]
    exact lookup_map_keyfix regC tid _ hC
  have hv0 : rc = 0 →
      List.lookup tid (run_convert_finish rc lines regV tid)
        = some { taskV with status := "completed", progress := 100 } := by
    intro h0
    unfold run_convert_finish
    rw [hV]
    dsimp only
    rw [if_neg hVe, if_pos h0]
    exact lookup_map_keyfix regV tid _ hV
  have hv1 : rc ≠ 0 →
      List.lookup tid (run_convert_finish rc lines regV tid)
        = some { taskV with status := "error",
                            error := some (stderr_tail_v lines) } := by
    intro h0
    unfold run_convert_finish
    rw [hV]
    dsimp only
    rw [if_neg hVe, if_neg h0]
    exact lookup_map_keyfix regV tid _ hV
  refine ⟨hc0, hc1, ?_, hv0, hv1, ?_⟩
  · intro t ht _
    by_cases h0 : rc = 0
    · rw [hc0 h0] at ht
      obtain rfl : _ = t := by simpa using ht
      rfl
    · rw [hc1 h0] at ht
      obtain rfl : _ = t := by simpa using ht
      simp_all
  · intro t ht hstat
    by_cases h0 : rc = 0
    · rw [hv0 h0] at ht
      obtain rfl : _ = t := by simpa using ht
      rfl
    · rw [hv1 h0] at ht
      obtain rfl : _ = t := by simpa using ht
      simp at hstat

/-- Witness for C5: a failing exit (code 1) on fresh tasks records the
stderr tail and an exit 0 completes with progress 100. -/
theorem terminal_exit_outcome_witness :
    List.lookup "t" (run_compression_finish 1 ["boom"]
        [("t", { task_id := "t", input_path := "i", output_path := "" })] "t")
      = some { task_id := "t", input_path := "i", output_path := "",
               status := CompressionStatus.error,
               error := some (stderr_tail_c ["boom"]) }
    ∧ List.lookup "t" (run_convert_finish 1 ["boom"]
        [("t", { task_id := "t", input_path := "i", output_path := "" })] "t")
      = some { task_id := "t", input_path := "i", output_path := "",
               status := "error", error := some (stderr_tail_v ["boom"]) } := by
  have h := terminal_exit_outcome 1 ["boom"] "t"
    [("t", { task_id := "t", input_path := "i", output_path := "" })]
    { task_id := "t", input_path := "i", output_path := "" }
    (lookup_cons_same _ _ _) (by simp)
    [("t", { task_id := "t", input_path := "i", output_path := "" })]
    { task_id := "t", input_path := "i", output_path := "" }
    (lookup_cons_same _ _ _) (by simp)
  exact ⟨h.2.1 (by decide), h.2.2.2.2.1 (by decide)⟩

/-- C6: cancelling a download succeeds exactly when the task exists with
status PENDING or DOWNLOADING; on success the task becomes ERROR with the
message "Cancelled by user"; on failure (any other state, or an unknown
identifier) the registry is untouched and the endpoint raises the 400
admission error. -/
theorem cancel_download_spec (reg : DRegistry) (tid : String) :
    ((cancel_task reg tid).1 = true ↔
      ∃ t, List.lookup tid reg = some t ∧
        (t.status = DownloadStatus.pending ∨ t.status = DownloadStatus.downloading))
    ∧ (∀ t, List.lookup tid reg = some t →
        (t.status = DownloadStatus.pending ∨ t.status = DownloadStatus.downloading) →
        List.lookup tid (cancel_task reg tid).2
          = some { t with status := DownloadStatus.error,
                          error := some "Cancelled by user" })
    ∧ ((cancel_task reg tid).1 = false →
        (cancel_task reg tid).2 = reg
        ∧ cancel_download reg tid
          = (Except.error (ApiError.badRequest "Cannot cancel this task"), reg)) := by
  refine ⟨?_, ?_, ?_⟩
  · constructor
    · intro h
      unfold cancel_task at h
      split at h
      · split at h
        · next t hl hs => exact ⟨t, hl, hs⟩
        · simp at h
      · simp at h
    · rintro ⟨t, hl, hs⟩
      unfold cancel_task
      rw [hl]
      dsimp only
      rw [if_pos hs]
  · intro t hl hs
    unfold cancel_task
    rw [hl]
    dsimp only
    rw [if_pos hs]
    exact lookup_map_keyfix reg tid _ hl
  · intro h
    have hreg : (cancel_task reg tid).2 = reg := by
      unfold cancel_task at h ⊢
      split at h
      · split at h
        · simp at h
        · next t hl hs => rw [if_neg hs]
      · rfl
    refine ⟨hreg, ?_⟩
    unfold cancel_download
    dsimp only
    rw [h, hreg]
    simp

/-! ### Registry frame lemmas for progress signals on unknown task ids -/

theorem apply_out_time_c_reg_none {reg : CRegistry} {tid : String}
    (dur : Option ℚ) (out : ℚ) (st : LineState)
    (h : List.lookup tid reg = none) :
    (apply_out_time_c dur tid out st reg).2 = reg :=
  update_progress_c_of_none _ h

theorem apply_out_time_v_reg_none {reg : VRegistry} {tid : String}
    (dur : Option ℚ) (out : ℚ) (st : LineState)
    (h : List.lookup tid reg = none) :
    (apply_out_time_v dur tid out st reg).2 = reg :=
  update_progress_v_of_none _ h

theorem time_eq_branch_c_reg_none {reg : CRegistry} {tid : String}
    (dur : Option ℚ) (line : String) (st : LineState)
    (h : List.lookup tid reg = none) :
    (time_eq_branch_c dur tid line st reg).2 = reg := by
  unfold time_eq_branch_c
  repeat' split
  all_goals first
    | rfl
    | exact apply_out_time_c_reg_none _ _ _ h

theorem time_eq_branch_v_reg_none {reg : VRegistry} {tid : String}
    (dur : Option ℚ) (line : String) (st : LineState)
    (h : List.lookup tid reg = none) :
    (time_eq_branch_v dur tid line st reg).2 = reg := by
  unfold time_eq_branch_v
  repeat' split
  all_goals first
    | rfl
    | exact apply_out_time_v_reg_none _ _ _ h

theorem key_branch_c_reg_none {reg : CRegistry} {tid : String}
    (dur : Option ℚ) (key value : String) (st : LineState)
    (h : List.lookup tid reg = none) :
    (key_branch_c dur tid key value st reg).2 = reg := by
  unfold key_branch_c out_time_ms_branch_c out_time_us_branch_c out_time_branch_c
  repeat' split
  all_goals first
    | rfl
    | exact apply_out_time_c_reg_none _ _ _ h
    | exact update_progress_c_of_none _ h

theorem handle_line_compress_reg_none {reg : CRegistry} {tid : String}
    (dur : Option ℚ) (line : String) (st : LineState)
    (h : List.lookup tid reg = none) :
    (handle_line_compress dur tid line st reg).2 = reg := by
  unfold handle_line_compress
  by_cases ht : hasSub line "time=" <;> by_cases he : hasSub line "=" <;>
    simp only [ht, he, if_true, if_false, Bool.false_eq_true]
  · rw [time_eq_branch_c_reg_none dur line st h]
    exact key_branch_c_reg_none dur _ _ _ h
  · exact time_eq_branch_c_reg_none dur line st h
  · exact key_branch_c_reg_none dur _ _ _ h

theorem handle_line_convert_reg_none {reg : VRegistry} {tid : String}
    (dur : Option ℚ) (line : String) (st : LineState)
    (h : List.lookup tid reg = none) :
    (handle_line_convert dur tid line st reg).2 = reg := by
  unfold handle_line_convert
  by_cases ht : hasSub line "time=" <;> by_cases he : hasSub line "=" <;>
    simp only [ht, he, if_true, if_false, Bool.false_eq_true]
  · rw [time_eq_branch_v_reg_none dur line st h]
    repeat' split
    all_goals first
      | rfl
      | exact time_eq_branch_v_reg_none dur line st h
      | exact update_progress_v_of_none _ h
  · exact time_eq_branch_v_reg_none dur line st h
  · repeat' split
    all_goals first
      | rfl
      | exact update_progress_v_of_none _ h

/-- C10: a progress signal carrying a task id that is not in the
corresponding registry is a no-op on that registry: the download hook
returns leaving every record unchanged, and both transcode line handlers —
which re-look the task up under the lock on every update — write nothing.
(All three embedded functions are total, so no exception escapes either.) -/
theorem unknown_task_progress_noop (tid : String) :
    (∀ (reg : DRegistry) (d : HookDict),
      List.lookup tid reg = none → progress_hook reg tid d = reg)
    ∧ (∀ (dur : Option ℚ) (line : String) (st : LineState) (reg : CRegistry),
      List.lookup tid reg = none → (handle_line_compress dur tid line st reg).2 = reg)
    ∧ (∀ (dur : Option ℚ) (line : String) (st : LineState) (reg : VRegistry),
      List.lookup tid reg = none → (handle_line_convert dur tid line st reg).2 = reg) := by
  refine ⟨?_, ?_, ?_⟩
  · intro reg d h
    unfold progress_hook
    rw [h]
  · intro dur line st reg h
    exact handle_line_compress_reg_none dur line st h
  · intro dur line st reg h
    exact handle_line_convert_reg_none dur line st h

/-- Witness for C10 on the empty registries and a typical progress line. -/
theorem unknown_task_progress_noop_witness :
    progress_hook [] "x" { status := "downloading", downloaded_bytes := 10 } = []
    ∧ (handle_line_compress (some 10000) "x" "out_time_ms=5000" {} []).2 = []
    ∧ (handle_line_convert (some 10000) "x" "out_time_ms=5000" {} []).2 = [] :=
  ⟨(unknown_task_progress_noop "x").1 [] _ rfl,
   (unknown_task_progress_noop "x").2.1 (some 10000) _ {} [] rfl,
   (unknown_task_progress_noop "x").2.2 (some 10000) _ {} [] rfl⟩

/-! ### Progress bound lemmas (claim C4) -/

theorem compute_progress_le_100 (dur : Option ℚ) (o l i : ℚ) :
    compute_progress dur o l i ≤ 100 := by
  unfold compute_progress
  split
  · split
    · exact le_trans (min_le_left _ _) (by norm_num)
    · exact min_le_left _ _
  · exact le_trans (min_le_left _ _) (by norm_num)

theorem min99_le_100 (x : ℚ) : min 99 x ≤ 100 :=
  le_trans (min_le_left _ _) (by norm_num)

theorem mem_update_progress_c_le {reg : CRegistry} (tid : String) {p : ℚ}
    (hreg : ∀ e ∈ reg, e.2.progress ≤ 100) (hp : p ≤ 100) :
    ∀ e ∈ update_progress_c reg tid p, e.2.progress ≤ 100 := by
  intro e he
  rw [update_progress_c, List.mem_map] at he
  obtain ⟨a, ha, rfl⟩ := he
  by_cases h : a.1 = tid
  · simpa [h] using hp
  · simpa [h] using hreg a ha

theorem mem_update_progress_v_le {reg : VRegistry} (tid : String) {p : ℚ}
    (hreg : ∀ e ∈ reg, e.2.progress ≤ 100) (hp : p ≤ 100) :
    ∀ e ∈ update_progress_v reg tid p, e.2.progress ≤ 100 := by
  intro e he
  rw [update_progress_v, List.mem_map] at he
  obtain ⟨a, ha, rfl⟩ := he
  by_cases h : a.1 = tid
  · simpa [h] using hp
  · simpa [h] using hreg a ha

theorem mem_apply_out_time_c_le {reg : CRegistry} (dur : Option ℚ)
    (tid : String) (out : ℚ) (st : LineState)
    (hreg : ∀ e ∈ reg, e.2.progress ≤ 100) :
    ∀ e ∈ (apply_out_time_c dur tid out st reg).2, e.2.progress ≤ 100 :=
  mem_update_progress_c_le tid hreg
    (compute_progress_le_100 dur out st.last_progress 0.2)

theorem mem_apply_out_time_v_le {reg : VRegistry} (dur : Option ℚ)
    (tid : String) (out : ℚ) (st : LineState)
    (hreg : ∀ e ∈ reg, e.2.progress ≤ 100) :
    ∀ e ∈ (apply_out_time_v dur tid out st reg).2, e.2.progress ≤ 100 :=
  mem_update_progress_v_le tid hreg
    (compute_progress_le_100 dur out st.last_progress 0.2)

theorem mem_time_eq_branch_c_le {reg : CRegistry} (dur : Option ℚ)
    (tid line : String) (st : LineState)
    (hreg : ∀ e ∈ reg, e.2.progress ≤ 100) :
    ∀ e ∈ (time_eq_branch_c dur tid line st reg).2, e.2.progress ≤ 100 := by
  unfold time_eq_branch_c
  repeat' split
  all_goals first
    | exact hreg
    | exact mem_apply_out_time_c_le dur tid _ st hreg

theorem mem_time_eq_branch_v_le {reg : VRegistry} (dur : Option ℚ)
    (tid line : String) (st : LineState)
    (hreg : ∀ e ∈ reg, e.2.progress ≤ 100) :
    ∀ e ∈ (time_eq_branch_v dur tid line st reg).2, e.2.progress ≤ 100 := by
  unfold time_eq_branch_v
  repeat' split
  all_goals first
    | exact hreg
    | exact mem_apply_out_time_v_le dur tid _ st hreg

theorem mem_key_branch_c_le {reg : CRegistry} (dur : Option ℚ)
    (tid key value : String) (st : LineState)
    (hreg : ∀ e ∈ reg, e.2.progress ≤ 100) :
    ∀ e ∈ (key_branch_c dur tid key value st reg).2, e.2.progress ≤ 100 := by
  unfold key_branch_c out_time_ms_branch_c out_time_us_branch_c out_time_branch_c
  repeat' split
  all_goals first
    | exact hreg
    | exact mem_apply_out_time_c_le dur tid _ st hreg
    | exact mem_update_progress_c_le tid hreg
        (min99_le_100 (st.last_progress + (0.3 : ℚ)))

theorem mem_handle_line_compress_le {reg : CRegistry} (dur : Option ℚ)
    (tid line : String) (st : LineState)
    (hreg : ∀ e ∈ reg, e.2.progress ≤ 100) :
    ∀ e ∈ (handle_line_compress dur tid line st reg).2, e.2.progress ≤ 100 := by
  unfold handle_line_compress
  by_cases ht : hasSub line "time=" <;> by_cases he : hasSub line "=" <;>
    simp only [ht, he, if_true, if_false, Bool.false_eq_true]
  · exact mem_key_branch_c_le dur tid _ _ _
      (mem_time_eq_branch_c_le dur tid line st hreg)
  · exact mem_time_eq_branch_c_le dur tid line st hreg
  · exact mem_key_branch_c_le dur tid _ _ _ hreg
  · exact hreg

theorem mem_handle_line_convert_le {reg : VRegistry} (dur : Option ℚ)
    (tid line : String) (st : LineState)
    (hreg : ∀ e ∈ reg, e.2.progress ≤ 100) :
    ∀ e ∈ (handle_line_convert dur tid line st reg).2, e.2.progress ≤ 100 := by
  unfold handle_line_convert
  by_cases ht : hasSub line "time=" <;> by_cases he : hasSub line "=" <;>
    simp only [ht, he, if_true, if_false, Bool.false_eq_true]
  · repeat' split
    all_goals first
      | exact mem_time_eq_branch_v_le dur tid line st hreg
      | exact mem_update_progress_v_le tid
          (mem_time_eq_branch_v_le dur tid line st hreg)
          (compute_progress_le_100 dur _ _ _)
  · exact mem_time_eq_branch_v_le dur tid line st hreg
  · repeat' split
    all_goals first
      | exact hreg
      | exact mem_update_progress_v_le tid hreg
          (compute_progress_le_100 dur _ _ _)
  · exact hreg

theorem mem_set_task_d_bounds {reg : DRegistry} (tid : String) {t : DownloadTask}
    (hreg : ∀ e ∈ reg, 0 ≤ e.2.progress ∧ e.2.progress ≤ 100)
    (ht : 0 ≤ t.progress ∧ t.progress ≤ 100) :
    ∀ e ∈ set_task reg tid t, 0 ≤ e.2.progress ∧ e.2.progress ≤ 100 := by
  intro e he
  rw [set_task, List.mem_map] at he
  obtain ⟨a, ha, rfl⟩ := he
  by_cases h : a.1 = tid
  · simpa [h] using ht
  · simpa [h] using hreg a ha

theorem mem_progress_hook_bounds {reg : DRegistry} (tid : String) (d : HookDict)
    (hreg : ∀ e ∈ reg, 0 ≤ e.2.progress ∧ e.2.progress ≤ 100)
    (hd0 : 0 ≤ d.downloaded_bytes) (hdt : d.downloaded_bytes ≤ hook_total d) :
    ∀ e ∈ progress_hook reg tid d, 0 ≤ e.2.progress ∧ e.2.progress ≤ 100 := by
  unfold progress_hook
  split
  · exact hreg
  · next task hl =>
    have htask := hreg (tid, task) (lookup_mem hl)
    split
    · -- status == "downloading"
      dsimp only
      apply mem_set_task_d_bounds tid hreg
      by_cases hpos : hook_total d > (0 : ℚ)
      · rw [if_pos hpos]
        dsimp only
        refine ⟨?_, ?_⟩
        · exact mul_nonneg (div_nonneg hd0 (le_of_lt hpos)) (by norm_num)
        · calc d.downloaded_bytes / hook_total d * 100
              ≤ 1 * 100 := by
                apply mul_le_mul_of_nonneg_right _ (by norm_num)
                exact (div_le_one hpos).mpr hdt
            _ = 100 := by norm_num
      · rw [if_neg hpos]
        exact htask
    · split
      · -- status == "finished": progress forced to 100
        apply mem_set_task_d_bounds tid hreg
        exact ⟨by norm_num, by norm_num⟩
      · split
        · -- status == "error": progress untouched
          apply mem_set_task_d_bounds tid hreg
          exact htask
        · exact hreg

/-! ### Evaluation lemmas for the transcode parser (claim C2) -/

theorem out_time_ms_branch_c_no_quirk (d raw : ℚ) (tid value : String)
    (st : LineState) (reg : CRegistry)
    (hval : pyFloat? value = some raw) (hle : ¬ raw > d * 10) :
    out_time_ms_branch_c (some d) tid value st reg
      = apply_out_time_c (some d) tid raw st reg := by
  unfold out_time_ms_branch_c
  rw [hval]
  dsimp only
  unfold out_time_ms_reinterpret
  dsimp only
  rw [if_neg fun h => hle h.2]

theorem out_time_ms_branch_c_quirk (d raw : ℚ) (tid value : String)
    (st : LineState) (reg : CRegistry)
    (hval : pyFloat? value = some raw) (hd : d ≠ 0) (hgt : raw > d * 10) :
    out_time_ms_branch_c (some d) tid value st reg
      = apply_out_time_c (some d) tid (raw / 1000) st reg := by
  unfold out_time_ms_branch_c
  rw [hval]
  dsimp only
  unfold out_time_ms_reinterpret
  dsimp only
  rw [if_pos ⟨hd, hgt⟩]

theorem out_time_us_branch_c_eval (raw : ℚ) (dur : Option ℚ) (tid value : String)
    (st : LineState) (reg : CRegistry) (hval : pyFloat? value = some raw) :
    out_time_us_branch_c dur tid value st reg
      = apply_out_time_c dur tid (raw / 1000) st reg := by
  unfold out_time_us_branch_c
  rw [hval]

theorem apply_out_time_c_reg_known (d out : ℚ) (tid : String) (st : LineState)
    (reg : CRegistry) (hd : d ≠ 0) :
    (apply_out_time_c (some d) tid out st reg).2
      = update_progress_c reg tid (min 100 (out / d * 100)) := by
  unfold apply_out_time_c compute_progress
  dsimp only
  rw [if_neg hd]

/-- C4 counterexample: the claim asserts `0 ≤ progress ≤ 100` at every
snapshot for every sequence of progress signals, *including* when the
download hook's `total_bytes` is only an estimate smaller than the bytes
actually downloaded.  Both bounds fail on the code.  Upper bound: the hook
computes `downloaded_bytes / total_bytes * 100` without clamping, so a
`downloading` signal with `downloaded_bytes = 200` against
`total_bytes_estimate = 100` leaves the task at progress 200 > 100.  Lower
bound: the compress line handler accepts any float, so the signal
`out_time_ms=-100` against a known duration of 10000 ms writes
`min(100.0, -100/10000*100) = -1 < 0` into the task. -/
theorem progress_bound_violated_by_estimate :
    ((List.lookup "t1" (progress_hook [("t1", { task_id := "t1", url := "u" })] "t1"
        { status := "downloading", downloaded_bytes := 200,
          total_bytes := none, total_bytes_estimate := 100 })).map
      DownloadTask.progress = some 200
    ∧ ¬ ((200 : ℚ) ≤ 100))
    ∧ ((List.lookup "t" (handle_line_compress (some 10000) "t" "out_time_ms=-100" {}
        [("t", { task_id := "t", input_path := "i", output_path := "" })]).2).map
      CompressionTask.progress = some (-1)
    ∧ ¬ ((0 : ℚ) ≤ -1)) := by
  refine ⟨⟨?_, by norm_num⟩, ⟨?_, by norm_num⟩⟩
  · unfold progress_hook
    rw [lookup_cons_same]
    dsimp only
    norm_num [hook_total, set_task, List.lookup]
  · have hsub : hasSub "out_time_ms=-100" "time=" = false := by decide
    have heq : hasSub "out_time_ms=-100" "=" = true := by decide
    have hkv : keyValueOf "out_time_ms=-100" = ("out_time_ms", "-100") := by decide
    have hv : pyFloat? "-100" = some (-100) := by decide
    unfold handle_line_compress
    rw [hsub, heq, hkv]
    simp only [Bool.false_eq_true, if_false, if_true]
    unfold key_branch_c
    rw [if_pos rfl]
    rw [out_time_ms_branch_c_no_quirk 10000 (-100) "t" "-100" _ _ hv (by norm_num)]
    rw [apply_out_time_c_reg_known 10000 (-100) "t" _ _ (by norm_num)]
    simp [update_progress_c, List.lookup]
    rw [min_def]
    norm_num

/-- C4 (amended): the bound `0 ≤ progress ≤ 100` holds for the download
hook whenever the reported `downloaded_bytes` is nonnegative and does not
exceed the effective total — the claim's underestimate case violates the
upper bound, see the first counterexample conjunct; the compress and
convert line handlers never push any task's progress above 100 on any
input line, while their lower bound needs the signal to be nonnegative —
a negative `out_time_ms` drives progress below 0, see the second
counterexample conjunct; and every progress value the transcode
computation produces from a nonnegative time signal, a nonnegative running
progress and a positive known duration (or no duration) lies within
`[0, 100]`. -/
theorem progress_bounds_amended :
    (∀ (reg : DRegistry) (tid : String) (d : HookDict),
      (∀ e ∈ reg, 0 ≤ e.2.progress ∧ e.2.progress ≤ 100) →
      0 ≤ d.downloaded_bytes → d.downloaded_bytes ≤ hook_total d →
      ∀ e ∈ progress_hook reg tid d, 0 ≤ e.2.progress ∧ e.2.progress ≤ 100)
    ∧ (∀ (dur : Option ℚ) (tid line : String) (st : LineState) (reg : CRegistry),
      (∀ e ∈ reg, e.2.progress ≤ 100) →
      ∀ e ∈ (handle_line_compress dur tid line st reg).2, e.2.progress ≤ 100)
    ∧ (∀ (dur : Option ℚ) (tid line : String) (st : LineState) (reg : VRegistry),
      (∀ e ∈ reg, e.2.progress ≤ 100) →
      ∀ e ∈ (handle_line_convert dur tid line st reg).2, e.2.progress ≤ 100)
    ∧ (∀ d out last inc : ℚ, 0 < d → 0 ≤ out → 0 ≤ last → 0 ≤ inc →
      0 ≤ compute_progress (some d) out last inc
      ∧ compute_progress (some d) out last inc ≤ 100)
    ∧ (∀ out last inc : ℚ, 0 ≤ last → 0 ≤ inc →
      0 ≤ compute_progress none out last inc
      ∧ compute_progress none out last inc ≤ 100) := by
  refine ⟨?_, ?_, ?_, ?_, ?_⟩
  · intro reg tid d hreg hd0 hdt
    exact mem_progress_hook_bounds tid d hreg hd0 hdt
  · intro dur tid line st reg hreg
    exact mem_handle_line_compress_le dur tid line st hreg
  · intro dur tid line st reg hreg
    exact mem_handle_line_convert_le dur tid line st hreg
  · intro d out last inc hd hout hlast hinc
    unfold compute_progress
    dsimp only
    rw [if_neg (ne_of_gt hd)]
    constructor
    · exact le_min (by norm_num) (mul_nonneg (div_nonneg hout hd.le) (by norm_num))
    · exact min_le_left _ _
  · intro out last inc hlast hinc
    unfold compute_progress
    dsimp only
    constructor
    · exact le_min (by norm_num) (by linarith)
    · exact min99_le_100 _

/-- Witness for C4 (amended), instantiating the signal-level bounds at a
known duration of 10000 ms and a 5000 ms time signal, and the
duration-unknown heuristic at `last_progress = 50`. -/
theorem progress_bounds_amended_witness :
    (0 ≤ compute_progress (some 10000) 5000 0 (0.2 : ℚ)
      ∧ compute_progress (some 10000) 5000 0 (0.2 : ℚ) ≤ 100)
    ∧ (0 ≤ compute_progress none 5000 50 (0.3 : ℚ)
      ∧ compute_progress none 5000 50 (0.3 : ℚ) ≤ 100) :=
  ⟨progress_bounds_amended.2.2.2.1 10000 5000 0 (0.2 : ℚ)
      (by norm_num) (by norm_num) (by norm_num) (by norm_num),
   progress_bounds_amended.2.2.2.2 5000 50 (0.3 : ℚ) (by norm_num) (by norm_num)⟩

/-- Witness for C6: cancelling a PENDING download at a concrete registry
succeeds and stamps the sentinel; cancelling a COMPLETED task fails with
the 400 admission error and leaves the registry unchanged. -/
theorem cancel_download_spec_witness :
    (cancel_task [("a", { task_id := "a", url := "u" })] "a").1 = true
    ∧ List.lookup "a" (cancel_task [("a", { task_id := "a", url := "u" })] "a").2
      = some { task_id := "a", url := "u", status := DownloadStatus.error,
               error := some "Cancelled by user" }
    ∧ (cancel_task [("c", { task_id := "c", url := "u",
                            status := DownloadStatus.completed })] "c").2
      = [("c", { task_id := "c", url := "u", status := DownloadStatus.completed })]
    ∧ cancel_download [("c", { task_id := "c", url := "u",
                               status := DownloadStatus.completed })] "c"
      = (Except.error (ApiError.badRequest "Cannot cancel this task"),
         [("c", { task_id := "c", url := "u", status := DownloadStatus.completed })]) := by
  have h1 := (cancel_download_spec [("a", { task_id := "a", url := "u" })] "a").1.mpr
    ⟨{ task_id := "a", url := "u" }, lookup_cons_same _ _ _, Or.inl rfl⟩
  have h2 := (cancel_download_spec [("a", { task_id := "a", url := "u" })] "a").2.1
    { task_id := "a", url := "u" } (lookup_cons_same _ _ _) (Or.inl rfl)
  have h3 := (cancel_download_spec [("c", { task_id := "c", url := "u",
                                            status := DownloadStatus.completed })]
    "c").2.2 (by decide)
  exact ⟨h1, h2, h3.1, h3.2⟩

/-! ### Event stream lemmas (claim C8) -/

theorem event_stream_over_live {α : Type} (f : α → Bool) (pre : List α)
    (tail : List (Option α)) (hpre : ∀ s ∈ pre, f s = false) :
    event_stream f (pre.map some ++ tail) = pre ++ event_stream f tail := by
  induction pre with
  | nil => simp
  | cons x xs ih =>
    simp only [List.map_cons, List.cons_append, event_stream]
    rw [hpre x (List.mem_cons_self _ _)]
    simp only [if_false, Bool.false_eq_true]
    rw [List.append_eq, ih (fun s hs => hpre s (List.mem_cons_of_mem _ hs))]

/-- C8: a stream whose polls show nonterminal snapshots for the first
`N - 1` ticks and a terminal snapshot at tick `N` emits exactly those `N`
snapshots — one per tick, the terminal one included — and nothing afterward
whatever the later polls would have returned; a poll that finds the task
gone ends the stream with no further emission.  Stated for the download and
compress event generators. -/
theorem event_stream_termination
    (preD : List DownloadTask) (tD : DownloadTask) (restD : List (Option DownloadTask))
    (hpreD : ∀ s ∈ preD, download_terminal s = false)
    (htD : download_terminal tD = true)
    (preC : List CompressionTask) (tC : CompressionTask)
    (restC : List (Option CompressionTask))
    (hpreC : ∀ s ∈ preC, compression_terminal s = false)
    (htC : compression_terminal tC = true) :
    event_stream download_terminal (preD.map some ++ some tD :: restD) = preD ++ [tD]
    ∧ event_stream download_terminal (preD.map some ++ none :: restD) = preD
    ∧ event_stream compression_terminal (preC.map some ++ some tC :: restC) = preC ++ [tC]
    ∧ event_stream compression_terminal (preC.map some ++ none :: restC) = preC := by
  refine ⟨?_, ?_, ?_, ?_⟩
  · rw [event_stream_over_live _ _ _ hpreD]
    simp [event_stream, htD]
  · rw [event_stream_over_live _ _ _ hpreD]
    simp [event_stream]
  · rw [event_stream_over_live _ _ _ hpreC]
    simp [event_stream, htC]
  · rw [event_stream_over_live _ _ _ hpreC]
    simp [event_stream]

/-- Witness for C8: a PENDING poll followed by a COMPLETED poll emits both
snapshots and stops, regardless of a stale trailing poll. -/
theorem event_stream_termination_witness :
    event_stream download_terminal
      ([{ task_id := "t", url := "u" }].map some
        ++ some { task_id := "t", url := "u", status := DownloadStatus.completed,
                  progress := 100 } :: [none])
      = [{ task_id := "t", url := "u" }]
        ++ [{ task_id := "t", url := "u", status := DownloadStatus.completed,
              progress := 100 }]
    ∧ event_stream compression_terminal
      ([{ task_id := "t", input_path := "i", output_path := "" }].map some
        ++ none :: [])
      = [{ task_id := "t", input_path := "i", output_path := "" }] :=
  ⟨(event_stream_termination
      [{ task_id := "t", url := "u" }]
      { task_id := "t", url := "u", status := DownloadStatus.completed, progress := 100 }
      [none] (by decide) (by decide)
      [] { task_id := "t", input_path := "i", output_path := "",
           status := CompressionStatus.completed } []
      (by decide) (by decide)).1,
   (event_stream_termination
      [] { task_id := "t", url := "u", status := DownloadStatus.completed } []
      (by decide) (by decide)
      [{ task_id := "t", input_path := "i", output_path := "" }]
      { task_id := "t", input_path := "i", output_path := "",
        status := CompressionStatus.completed } []
      (by decide) (by decide)).2.2.2⟩

/-- C2: against a known duration of 10000 ms, the machine-progress line
`out_time_ms=5000` sets the compress task's progress to exactly 50, the
line `out_time_us=5000000` sets exactly the same value, and — in both the
compress branch and the convert state update — any raw `out_time_ms` value
strictly exceeding `duration_ms * 10` is reinterpreted as microseconds and
divided by 1000 before the progress percentage is computed from it. -/
theorem transcode_progress_roundtrip :
    ((List.lookup "t" (handle_line_compress (some 10000) "t" "out_time_ms=5000" {}
        [("t", { task_id := "t", input_path := "i", output_path := "" })]).2).map
      CompressionTask.progress = some 50)
    ∧ ((List.lookup "t" (handle_line_compress (some 10000) "t" "out_time_us=5000000" {}
        [("t", { task_id := "t", input_path := "i", output_path := "" })]).2).map
      CompressionTask.progress = some 50)
    ∧ (∀ (d raw : ℚ) (tid value : String) (st : LineState) (reg : CRegistry),
        pyFloat? value = some raw → d ≠ 0 → raw > d * 10 →
        out_time_ms_branch_c (some d) tid value st reg
          = apply_out_time_c (some d) tid (raw / 1000) st reg)
    ∧ (∀ (d raw : ℚ) (value : String) (st : LineState),
        pyFloat? value = some raw → raw > d * 10 → d ≠ 0 →
        key_state_update_v (some d) "out_time_ms" value st
          = some { st with out_time_ms := raw / 1000 }) := by
  refine ⟨?_, ?_, ?_, ?_⟩
  · have hsub : hasSub "out_time_ms=5000" "time=" = false := by decide
    have heq : hasSub "out_time_ms=5000" "=" = true := by decide
    have hkv : keyValueOf "out_time_ms=5000" = ("out_time_ms", "5000") := by decide
    have hv : pyFloat? "5000" = some 5000 := by decide
    unfold handle_line_compress
    rw [hsub, heq, hkv]
    simp only [Bool.false_eq_true, if_false, if_true]
    unfold key_branch_c
    rw [if_pos rfl]
    rw [out_time_ms_branch_c_no_quirk 10000 5000 "t" "5000" _ _ hv (by norm_num)]
    rw [apply_out_time_c_reg_known 10000 5000 "t" _ _ (by norm_num)]
    simp [update_progress_c, List.lookup]
    rw [min_def]
    norm_num
  · have hsub : hasSub "out_time_us=5000000" "time=" = false := by decide
    have heq : hasSub "out_time_us=5000000" "=" = true := by decide
    have hkv : keyValueOf "out_time_us=5000000" = ("out_time_us", "5000000") := by decide
    have hv : pyFloat? "5000000" = some 5000000 := by decide
    unfold handle_line_compress
    rw [hsub, heq, hkv]
    simp only [Bool.false_eq_true, if_false, if_true]
    unfold key_branch_c
    rw [if_neg (by decide), if_pos rfl]
    rw [out_time_us_branch_c_eval 5000000 _ "t" "5000000" _ _ hv]
    rw [apply_out_time_c_reg_known 10000 (5000000 / 1000) "t" _ _ (by norm_num)]
    simp [update_progress_c, List.lookup]
    rw [min_def]
    norm_num
  · intro d raw tid value st reg hval hd hgt
    exact out_time_ms_branch_c_quirk d raw tid value st reg hval hd hgt
  · intro d raw value st hval hgt hd
    unfold key_state_update_v
    rw [if_pos rfl, hval]
    dsimp only
    unfold out_time_ms_reinterpret
    dsimp only
    rw [if_pos ⟨hd, hgt⟩]

/-- Witness for C2's quirk clause at `duration_ms = 10000` and the raw
value 200000 (which exceeds 10000 × 10): both handlers treat it as
microseconds, i.e. as 200000 / 1000 ms. -/
theorem transcode_progress_roundtrip_witness :
    out_time_ms_branch_c (some 10000) "t" "200000" {} []
      = apply_out_time_c (some 10000) "t" ((200000 : ℚ) / 1000) {} []
    ∧ key_state_update_v (some 10000) "out_time_ms" "200000" {}
      = some { out_time_ms := (200000 : ℚ) / 1000, last_progress := 0 } :=
  ⟨transcode_progress_roundtrip.2.2.1 10000 200000 "t" "200000" {} []
      (by decide) (by norm_num) (by norm_num),
   transcode_progress_roundtrip.2.2.2 10000 200000 "200000" {}
      (by decide) (by norm_num) (by norm_num)⟩

/-! ### Output path lemmas (claim C7) -/

theorem range'_find?_first (p : ℕ → Bool) (i : ℕ) :
    ∀ (s n : ℕ), s ≤ i → i < s + n → p i = true →
    (∀ j, s ≤ j → j < i → p j = false) →
    (List.range' s n).find? p = some i := by
  intro s n
  induction n generalizing s with
  | zero => intro hsi hin _ _; omega
  | succ n ih =>
    intro hsi hin hp hmin
    have hr : List.range' s (n + 1) = s :: List.range' (s + 1) n := rfl
    rw [hr]
    by_cases hs : s = i
    · subst hs
      exact List.find?_cons_of_pos _ hp
    · have hps : p s = false := hmin s le_rfl (by omega)
      rw [List.find?_cons_of_neg _ (by simp [hps])]
      exact ih (s + 1) (by omega) (by omega) hp
        (fun j h1 h2 => hmin j (by omega) h2)

theorem data_append (a b : String) : (a ++ b).data = a.data ++ b.data := by
  cases a; cases b; rfl

theorem head?_append_left {l l' : List Char} (h : l ≠ []) :
    (l ++ l').head? = l.head? := by
  cases l with
  | nil => exact absurd rfl h
  | cons c cs => rfl

theorem compress_base_data_ne_nil (ip : String) :
    (compress_base ip).data ≠ [] := by
  unfold compress_base
  rw [data_append]
  intro h
  have hlen := congrArg List.length h
  have h11 : ("-compressed".data).length = 11 := rfl
  rw [List.length_append, h11] at hlen
  simp at hlen

theorem convert_base_data_ne_nil (ip : String) :
    (convert_base ip).data ≠ [] := by
  unfold convert_base
  rw [data_append]
  intro h
  have hlen := congrArg List.length h
  have h10 : ("-converted".data).length = 10 := rfl
  rw [List.length_append, h10] at hlen
  simp at hlen

theorem path_join_ne_of_len (dir x y : String)
    (hhead : x.data.head? = y.data.head?) (hlen : x.length ≠ y.length) :
    path_join dir x ≠ path_join dir y := by
  have hx : ∀ a b : String, a.length ≠ b.length → a ≠ b := by
    intro a b hab he
    exact hab (by rw [he])
  unfold path_join
  by_cases h1 : dir = ""
  · rw [if_pos h1, if_pos h1]
    exact hx _ _ hlen
  · rw [if_neg h1, if_neg h1, hhead]
    by_cases h2 : y.data.head? = some '/'
    · rw [if_pos h2, if_pos h2]
      exact hx _ _ hlen
    · rw [if_neg h2, if_neg h2]
      by_cases h3 : dir.data.getLast? = some '/'
      · rw [if_pos h3, if_pos h3]
        apply hx
        simp only [String.length_append]
        omega
      · rw [if_neg h3, if_neg h3]
        apply hx
        simp only [String.length_append]
        omega

theorem compress_default_ne_numbered_two (ip od fmt : String) :
    compress_default ip od fmt ≠ compress_numbered ip od fmt 2 := by
  unfold compress_default compress_numbered
  apply path_join_ne_of_len
  · simp only [data_append, List.append_assoc]
    rw [head?_append_left (compress_base_data_ne_nil ip),
        head?_append_left (compress_base_data_ne_nil ip)]
  · simp only [String.length_append]
    have h2 : (toString 2).length = 1 := rfl
    have hdot : ("." : String).length = 1 := rfl
    have hdash : ("-" : String).length = 1 := rfl
    rw [h2, hdot, hdash]
    omega

theorem convert_default_ne_numbered_two (ip od fmt : String) :
    convert_default ip od fmt ≠ convert_numbered ip od fmt 2 := by
  unfold convert_default convert_numbered
  apply path_join_ne_of_len
  · simp only [data_append, List.append_assoc]
    rw [head?_append_left (convert_base_data_ne_nil ip),
        head?_append_left (convert_base_data_ne_nil ip)]
  · simp only [String.length_append]
    have h2 : (toString 2).length = 1 := rfl
    have hdot : ("." : String).length = 1 := rfl
    have hdash : ("-" : String).length = 1 := rfl
    rw [h2, hdot, hdash]
    omega

/-- C7: for any set of existing files, `_build_output_path` (and its
convert twin) returns the default suffixed candidate when it is free; when
it exists, the first free numbered candidate with `2 ≤ i < 50`; and when
the default and every numbered candidate up to the bound exist, the
timestamp-suffixed path.  The default candidate and the `-2` candidate are
distinct paths, so two successive submissions of the same request (the
second seeing the first's output) receive distinct output paths. -/
theorem output_path_convention (ex : String → Bool) (now : Nat)
    (ip od fmt : String) :
    (ex (compress_default ip od fmt) = false →
      build_output_path ex now ip od fmt = compress_default ip od fmt)
    ∧ (∀ i, 2 ≤ i → i < 50 →
      ex (compress_default ip od fmt) = true →
      ex (compress_numbered ip od fmt i) = false →
      (∀ j, 2 ≤ j → j < i → ex (compress_numbered ip od fmt j) = true) →
      build_output_path ex now ip od fmt = compress_numbered ip od fmt i)
    ∧ (ex (compress_default ip od fmt) = true →
      (∀ j, 2 ≤ j → j < 50 → ex (compress_numbered ip od fmt j) = true) →
      build_output_path ex now ip od fmt = compress_numbered ip od fmt now)
    ∧ compress_default ip od fmt ≠ compress_numbered ip od fmt 2
    ∧ (ex (convert_default ip od fmt) = false →
      build_convert_output_path ex now ip od fmt = convert_default ip od fmt)
    ∧ (∀ i, 2 ≤ i → i < 50 →
      ex (convert_default ip od fmt) = true →
      ex (convert_numbered ip od fmt i) = false →
      (∀ j, 2 ≤ j → j < i → ex (convert_numbered ip od fmt j) = true) →
      build_convert_output_path ex now ip od fmt = convert_numbered ip od fmt i)
    ∧ (ex (convert_default ip od fmt) = true →
      (∀ j, 2 ≤ j → j < 50 → ex (convert_numbered ip od fmt j) = true) →
      build_convert_output_path ex now ip od fmt = convert_numbered ip od fmt now)
    ∧ convert_default ip od fmt ≠ convert_numbered ip od fmt 2 := by
  refine ⟨?_, ?_, ?_, compress_default_ne_numbered_two ip od fmt,
          ?_, ?_, ?_, convert_default_ne_numbered_two ip od fmt⟩
  · intro h
    unfold build_output_path
    rw [if_pos h]
  · intro i h2 h50 hdef hfree hall
    unfold build_output_path
    rw [if_neg (by simp [hdef])]
    rw [range'_find?_first _ i 2 48 h2 (by omega) (by simp [hfree])
      (fun j hj1 hj2 => by simp [hall j hj1 hj2])]
  · intro hdef hall
    unfold build_output_path
    rw [if_neg (by simp [hdef])]
    rw [List.find?_eq_none.mpr ?_]
    intro x hx
    rw [List.mem_range'_1] at hx
    simp [hall x hx.1 (by omega)]
  · intro h
    unfold build_convert_output_path
    rw [if_pos h]
  · intro i h2 h50 hdef hfree hall
    unfold build_convert_output_path
    rw [if_neg (by simp [hdef])]
    rw [range'_find?_first _ i 2 48 h2 (by omega) (by simp [hfree])
      (fun j hj1 hj2 => by simp [hall j hj1 hj2])]
  · intro hdef hall
    unfold build_convert_output_path
    rw [if_neg (by simp [hdef])]
    rw [List.find?_eq_none.mpr ?_]
    intro x hx
    rw [List.mem_range'_1] at hx
    simp [hall x hx.1 (by omega)]

/-- Witness for C7: with only `/out/video-compressed.mp4` existing, the
compress request for `video.mp4` into `/out` with format `MP4` is routed to
`/out/video-compressed-2.mp4`; with nothing existing it gets the default
path. -/
theorem output_path_convention_witness :
    build_output_path (fun p => p == "/out/video-compressed.mp4") 999
        "video.mp4" "/out" "MP4"
      = compress_numbered "video.mp4" "/out" "MP4" 2
    ∧ build_output_path (fun _ => false) 999 "video.mp4" "/out" "MP4"
      = compress_default "video.mp4" "/out" "MP4"
    ∧ compress_default "video.mp4" "/out" "MP4"
      ≠ compress_numbered "video.mp4" "/out" "MP4" 2 :=
  ⟨(output_path_convention (fun p => p == "/out/video-compressed.mp4") 999
      "video.mp4" "/out" "MP4").2.1 2 (by norm_num) (by norm_num)
      (by decide) (by decide) (fun j h1 h2 => by omega),
   (output_path_convention (fun _ => false) 999 "video.mp4" "/out" "MP4").1 rfl,
   (output_path_convention (fun _ => false) 999 "video.mp4" "/out" "MP4").2.2.2.1⟩

end GravityDown
